import Mathlib

/-!
Verification of the transaction-boundary tracking engine of the
`mysql-gtid-position` repository.

The development shallowly embeds the Go source:
* `processEvent` / `runScanE` / `searchBinlogFile` embed the per-event
  callback and driver loop of `Searcher.searchBinlogFile`
  (`searcher/binlog.go`, lines 134-262);
* `collectBest`, `admissibleRun` and `searchParallelOutcome` model
  `Searcher.SearchParallel` (`searcher/binlog.go`, lines 64-130);
* `sortSearch`, `FindStartFileUsingHeaders` and `CheckPreviousGTIDs`
  embed the smart file selector;
* `processRemoteEvent` / `runRemote` embed the event loop of
  `RemoteSearcher.Search`.

Machine integers: all header fields (`Timestamp`, `LogPos`, `EventSize`)
are Go `uint32` values, modelled as `Nat` with explicit reduction modulo
`2^32` where Go arithmetic can wrap (`sub32`).  The external GTID-set
capability of go-mysql is modelled at its interface: the tracker only ever
asks whether the target set contains one concrete `uuid:gno` pair, so the
target is passed as a `String → Nat → Bool` predicate; the file selector
compares whole sets, for which `MGTIDSet`/`containSet` provide an
executable interval model of the external `GTIDSet.Contain`.
-/

/-- `2^32`, the modulus of Go `uint32` arithmetic. -/
def UINT32 : Nat := 4294967296

/-- Go `uint32` subtraction `a - b`: wraps modulo `2^32`
(used by `e.Header.LogPos - e.Header.EventSize` in the source). -/
def sub32 (a b : Nat) : Nat := (a % UINT32 + (UINT32 - b % UINT32)) % UINT32

/-- Decoded binlog event payload, the type-tagged variant delivered by the
external stream provider (go-mysql `replication` package).  The raw SID
bytes of a GTID event are delivered here already formatted as the UUID
string the source builds with `fmt.Sprintf`; `gno` is the transaction
number (non-negative, as required for `ParseMysqlGTIDSet` to succeed). -/
inductive EventBody where
  | gtidEv (uuid : String) (gno : Nat)
  | xidEv
  | queryEv (schema : String) (query : String)
  | prevGTIDsEv (text : String)
  | rotateEv (next : String)
  | otherEv
deriving DecidableEq, Repr

/-- A decoded binlog event: the header fields the tracker reads
(`Timestamp`, `LogPos`, `EventSize`, all `uint32`) plus the payload. -/
structure BinlogEvent where
  timestamp : Nat
  logPos : Nat
  eventSize : Nat
  body : EventBody
deriving DecidableEq, Repr

/-- `models.GTIDPosition` (models package).  `CreatedAt` (a wall-clock
`time.Time` set with `time.Now()`) is omitted: no claim concerns it. -/
structure GTIDPosition where
  binlogFile : String
  position : Nat
  commitPosition : Nat
  resumePosition : Nat
  timestamp : Nat
  gtid : String
  serverUUID : String
  gno : Nat
  database : String
  nextGTID : String
deriving DecidableEq, Repr

/-- The configuration fields `searchBinlogFile` reads: the two Unix
timestamps computed from `Config.StartTime` / `Config.EndTime` (zero when
the bound is not configured) and `Config.FilterDatabase`. -/
structure Config where
  startTimestamp : Nat
  endTimestamp : Nat
  filterDatabase : String
deriving DecidableEq, Repr

/-- The mutable local state of one `searchBinlogFile` invocation:
`result`, `currentDatabase`, `currentTransaction`
(`searcher/binlog.go`, lines 137-139). -/
structure ScanState where
  result : Option GTIDPosition
  currentDatabase : String
  currentTransaction : Option GTIDPosition
deriving DecidableEq, Repr

/-- State at the start of a scan: all three variables zero-valued. -/
def initState : ScanState := ⟨none, "", none⟩

/-- Outcome of one callback invocation: `cont` is a `nil` return
(continue), `stopScan` is the sentinel error `found_next_gtid`. -/
inductive StepOut where
  | cont (st : ScanState)
  | stopScan (st : ScanState)
deriving DecidableEq, Repr

/-- The GTID string `uuid:gno` the source formats with `fmt.Sprintf`. -/
def gtidString (uuid : String) (gno : Nat) : String :=
  uuid ++ ":" ++ toString gno

/-- Whether an event body marks transaction end: an XID event, or a query
event whose text is the literal `COMMIT` (`searcher/binlog.go`,
lines 221 and 235-238). -/
def isCommitBody : EventBody → Bool
  | .xidEv => true
  | .queryEv _ q => q == "COMMIT" || q == "commit"
  | _ => false

/-- Whether an event passes the time-range filter of `searchBinlogFile`
(lines 152-157): events before a configured start time or after a
configured end time are skipped. -/
def timePass (cfg : Config) (e : BinlogEvent) : Prop :=
  ¬(cfg.startTimestamp > 0 ∧ e.timestamp < cfg.startTimestamp) ∧
  ¬(cfg.endTimestamp > 0 ∧ e.timestamp > cfg.endTimestamp)

instance (cfg : Config) (e : BinlogEvent) : Decidable (timePass cfg e) := by
  unfold timePass; infer_instance

/-- One invocation of the `ParseFile` callback of `searchBinlogFile`
(`searcher/binlog.go`, lines 150-254), as a pure step function.
`target` is the external `(*targetGTID).Contain` applied to the single
GTID `uuid:gno`. -/
def processEvent (cfg : Config) (target : String → Nat → Bool) (file : String)
    (st : ScanState) (e : BinlogEvent) : StepOut :=
  -- lines 152-157: time-range filter
  if cfg.startTimestamp > 0 ∧ e.timestamp < cfg.startTimestamp then .cont st
  else if cfg.endTimestamp > 0 ∧ e.timestamp > cfg.endTimestamp then .cont st
  else
    -- lines 160-165: database context from a query event with a schema
    let db := match e.body with
      | .queryEv schema _ => if schema.length > 0 then schema else st.currentDatabase
      | _ => st.currentDatabase
    match e.body with
    | .gtidEv uuid gno =>
      -- lines 168-216: GTID event
      if target uuid gno then
        if cfg.filterDatabase ≠ "" ∧ db ≠ cfg.filterDatabase then
          .cont ⟨st.result, db, none⟩
        else
          .cont ⟨st.result, db, some ⟨file, sub32 e.logPos e.eventSize,
            e.logPos, e.logPos, e.timestamp, gtidString uuid gno, uuid, gno, db, ""⟩⟩
      else
        match st.result with
        | some r =>
          if r.nextGTID = "" then
            .stopScan ⟨some { r with
              nextGTID := gtidString uuid gno
              resumePosition := e.logPos }, db, st.currentTransaction⟩
          else .cont ⟨st.result, db, none⟩
        | none => .cont ⟨st.result, db, none⟩
    | body =>
      -- lines 219-251: transaction end while a transaction is in flight
      match st.currentTransaction with
      | none => .cont ⟨st.result, db, none⟩
      | some ct =>
        if isCommitBody body then
          let ctc := { ct with
            commitPosition := e.logPos
            resumePosition := e.logPos
            timestamp := e.timestamp }
          .cont ⟨(match st.result with
            | none => some ctc
            | some r => if ctc.gno > r.gno then some ctc else some r), db, none⟩
        else .cont ⟨st.result, db, some ct⟩

/-- How one scan ended: end of stream reached, or the callback aborted
`ParseFile` with the sentinel error. -/
inductive ScanEnd where
  | completed (st : ScanState)
  | stopped (st : ScanState)
deriving DecidableEq, Repr

/-- The state carried by a `ScanEnd`. -/
def ScanEnd.state : ScanEnd → ScanState
  | .completed st => st
  | .stopped st => st

/-- Driving the callback over the ordered event sequence, stopping as soon
as the callback returns the sentinel error (the stream provider aborts
`ParseFile` when the callback returns a non-nil error). -/
def runScanE (cfg : Config) (target : String → Nat → Bool) (file : String) :
    ScanState → List BinlogEvent → ScanEnd
  | st, [] => .completed st
  | st, e :: es =>
    match processEvent cfg target file st e with
    | .cont st' => runScanE cfg target file st' es
    | .stopScan st' => .stopped st'

/-- The final scan state, whichever way the scan ended. -/
def runScan (cfg : Config) (target : String → Nat → Bool) (file : String)
    (st : ScanState) (es : List BinlogEvent) : ScanState :=
  (runScanE cfg target file st es).state

/-- `Searcher.searchBinlogFile` (lines 134-262): run the scan over the
events the provider delivers; `tail` is the error `ParseFile` itself
returns after delivering every event (`none` for a clean end of stream).
Errors are modelled by their message strings, the identity the source
itself uses (`err.Error() != "found_next_gtid"`, line 257). -/
def searchBinlogFile (cfg : Config) (target : String → Nat → Bool)
    (file : String) (events : List BinlogEvent) (tail : Option String) :
    Except String (Option GTIDPosition) :=
  let out :=
    match runScanE cfg target file initState events with
    | .stopped st => (st, some "found_next_gtid")
    | .completed st => (st, tail)
  match out.2 with
  | some msg => if msg ≠ "found_next_gtid" then .error msg else .ok out.1.result
  | none => .ok out.1.result

/-- The transaction numbers of the transactions that complete commit
during one scan, in order: instrumentation of `runScanE` that records
`currentTransaction.GNO` each time the commit branch of the callback
promotes it (lines 219-251).  Recording stops where the scan stops. -/
def commitsDuring (cfg : Config) (target : String → Nat → Bool) (file : String) :
    ScanState → List BinlogEvent → List Nat
  | _, [] => []
  | st, e :: es =>
    match processEvent cfg target file st e with
    | .stopScan _ => []
    | .cont st' =>
      let rest := commitsDuring cfg target file st' es
      if timePass cfg e then
        match st.currentTransaction with
        | some ct => if isCommitBody e.body then ct.gno :: rest else rest
        | none => rest
      else rest

/-! ## Smart file selector -/

/-- The binary-search loop `sortSearch` (searcher smart-selection file,
lines 68-82): smallest index in `[0, n)` where `f` is true, `n` if none,
assuming `f` monotone.  The Go loop state `(i, j)` becomes structural
recursion on `j - i`. -/
def sortSearchAux (f : Nat → Bool) (i j : Nat) : Nat :=
  if hij : i < j then
    let h := (i + j) / 2
    if f h then sortSearchAux f i h else sortSearchAux f (h + 1) j
  else i
termination_by j - i
decreasing_by
  · have h1 : (i + j) / 2 < j := by omega
    omega
  · have h1 : i ≤ (i + j) / 2 := by omega
    omega

/-- The wrapper `sortSearch(n, f)` of the source. -/
def sortSearch (n : Nat) (f : Nat → Bool) : Nat := sortSearchAux f 0 n

/-- `Searcher.FindStartFileUsingHeaders` (smart-selection file,
lines 14-65), over the per-index header predicate `P` (the closure at
lines 27-37, already including the error-to-false fallback). -/
def FindStartFileUsingHeaders (P : Nat → Bool) (files : List String) :
    Except String String :=
  if files.length = 0 then .error "no files to search"
  else
    let idx := sortSearch files.length P
    if idx = 0 then .ok (files.getD 0 "")
    else if idx = files.length then .ok (files.getD (files.length - 1) "")
    else .ok (files.getD (idx - 1) "")

/-- Executable interval model of the external go-mysql `GTIDSet`: a set of
transaction-number intervals per server UUID (spec section 3, external
collaborator modelled at its interface boundary). -/
structure GtidInterval where
  uuid : String
  lo : Nat
  hi : Nat
deriving DecidableEq, Repr

/-- A GTID set as a list of intervals. -/
def MGTIDSet : Type := List GtidInterval
deriving DecidableEq, Repr

/-- `A.Contain(B)`: every interval of `B` lies inside some interval of
`A` (interface model of the external containment capability). -/
def containSet (a b : MGTIDSet) : Bool :=
  b.all fun iv => a.any fun jv =>
    jv.uuid == iv.uuid && decide (jv.lo ≤ iv.lo) && decide (iv.hi ≤ jv.hi)

/-- How the header probe of `CheckPreviousGTIDs` ends: the first
previous-GTIDs event was found and parsed (`stop_scan`), its text failed
to parse (the callback aborts with a parse error), or the event stream
ended without one. -/
inductive ProbeOutcome where
  | found (s : MGTIDSet)
  | parseFail
  | exhausted
deriving Repr

/-- The header scan of `CheckPreviousGTIDs` (lines 275-293): walk events
in order until the first `PREVIOUS_GTIDS_EVENT`. `parseSet` is the
external `mysql.ParseMysqlGTIDSet`. -/
def probeHeader (parseSet : String → Option MGTIDSet) :
    List BinlogEvent → ProbeOutcome
  | [] => .exhausted
  | e :: es =>
    match e.body with
    | .prevGTIDsEv text =>
      match parseSet text with
      | some s => .found s
      | none => .parseFail
    | _ => probeHeader parseSet es

/-- `Searcher.CheckPreviousGTIDs` (lines 267-343): true iff the file's
previous-GTIDs header fully contains the target set.  `tail` is the error
`ParseFile` returns after delivering every event (`none` when it ends
cleanly); the sentinel `stop_scan` is swallowed (line 295). -/
def CheckPreviousGTIDs (parseSet : String → Option MGTIDSet)
    (target : MGTIDSet) (events : List BinlogEvent) (tail : Option String) :
    Except String Bool :=
  match probeHeader parseSet events with
  | .found s => .ok (containSet s target)
  | .parseFail => .error "failed to parse GTID set"
  | .exhausted =>
    match tail with
    | some msg => if msg ≠ "stop_scan" then .error msg else .ok false
    | none => .ok false

/-- The predicate wrapper of `FindStartFileUsingHeaders` (lines 27-37): a
probe error counts as false (the file is treated as unknown, not
skipped). -/
def headerPred (probe : Except String Bool) : Bool :=
  match probe with
  | .error _ => false
  | .ok b => b

/-! ## File scan coordinator -/

/-- The selection step of the aggregation loop of `SearchParallel`
(`searcher/binlog.go`, lines 115-119): keep the result with the strictly
higher GNO. -/
def pickBest (best : Option GTIDPosition) (r : GTIDPosition) : Option GTIDPosition :=
  match best with
  | none => some r
  | some b => if r.gno > b.gno then some r else some b

/-- The aggregation loop of `SearchParallel` (lines 112-120): fold over
the published results in the order received. -/
def collectBest (published : List GTIDPosition) : Option GTIDPosition :=
  published.foldl pickBest none

/-- Reachable-outcome model of the concurrency of `SearchParallel`
(lines 64-130).  `scanRes i` is what `searchBinlogFile` returns for file
`i`; `ran` is the set of file indices whose tasks passed the
`ctx.Done()` check (lines 82-86) and actually scanned.  A task skips
only when `cancel()` (line 100) already ran, and `cancel()` runs only
after some task published a non-nil result (lines 98-101); therefore a
run is admissible iff either every task scanned, or some scanned task
produced a match.  The admissible runs do not depend on the concurrency
limit `Parallel`: the semaphore (line 72) only bounds how many tasks are
between acquire and release at once. -/
def admissibleRun (scanRes : Nat → Option GTIDPosition) (numFiles : Nat)
    (ran : List Nat) : Prop :=
  ran.Sublist (List.range numFiles) ∧
  (ran = List.range numFiles ∨ ∃ i ∈ ran, scanRes i ≠ none)

/-- The coordinator's selected outcome for one admissible run: the
aggregation fold over the results the scanned tasks published. -/
def searchParallelOutcome (scanRes : Nat → Option GTIDPosition)
    (ran : List Nat) : Option GTIDPosition :=
  collectBest (ran.filterMap scanRes)

/-! ## Remote stream resolver -/

/-- One read from the remote stream: a delivered event, an idle-timeout
expiry of `GetEvent` (`context.DeadlineExceeded`), or a stream error. -/
inductive RemoteItem where
  | ev (e : BinlogEvent)
  | timeout
  | fail (msg : String)
deriving Repr

/-- Outcome of processing one delivered event in the loop of
`RemoteSearcher.Search`: continue with updated state and current file
name, or return a final result. -/
inductive RemoteStep where
  | cont (st : ScanState) (file : String)
  | ret (res : Option GTIDPosition)
deriving Repr

/-- One iteration of the event-processing part of `RemoteSearcher.Search`
(remote searcher file, lines 96-198).  Differences from the file tracker:
an event past the end time returns the current best (lines 100-105), an
out-of-range GTID after a completed result returns immediately
(lines 151-155), a rotate event renames the current file (lines 161-167),
and an in-flight transaction's file name follows the current file
(line 171). -/
def processRemoteEvent (cfg : Config) (target : String → Nat → Bool)
    (st : ScanState) (file : String) (e : BinlogEvent) : RemoteStep :=
  if cfg.startTimestamp > 0 ∧ e.timestamp < cfg.startTimestamp then .cont st file
  else if cfg.endTimestamp > 0 ∧ e.timestamp > cfg.endTimestamp then .ret st.result
  else
    let db := match e.body with
      | .queryEv schema _ => if schema.length > 0 then schema else st.currentDatabase
      | _ => st.currentDatabase
    match e.body with
    | .gtidEv uuid gno =>
      if target uuid gno then
        if cfg.filterDatabase ≠ "" ∧ db ≠ cfg.filterDatabase then
          .cont ⟨st.result, db, none⟩ file
        else
          .cont ⟨st.result, db, some ⟨file, sub32 e.logPos e.eventSize,
            e.logPos, e.logPos, e.timestamp, gtidString uuid gno, uuid, gno, db, ""⟩⟩ file
      else
        match st.result with
        | some r =>
          if r.nextGTID = "" then
            .ret (some { r with
              nextGTID := gtidString uuid gno
              resumePosition := e.logPos })
          else .cont ⟨st.result, db, none⟩ file
        | none => .cont ⟨st.result, db, none⟩ file
    | .rotateEv next =>
      match st.currentTransaction with
      | some ct => .cont ⟨st.result, db, some { ct with binlogFile := next }⟩ next
      | none => .cont ⟨st.result, db, none⟩ next
    | body =>
      match st.currentTransaction with
      | none => .cont ⟨st.result, db, none⟩ file
      | some ct =>
        let ct' := { ct with binlogFile := file }
        if isCommitBody body then
          let ctc := { ct' with
            commitPosition := e.logPos
            resumePosition := e.logPos
            timestamp := e.timestamp }
          .cont ⟨(match st.result with
            | none => some ctc
            | some r => if ctc.gno > r.gno then some ctc else some r), db, none⟩ file
        else .cont ⟨st.result, db, some ct'⟩ file

/-- The driver loop of `RemoteSearcher.Search` (lines 72-199) over the
sequence of reads the stream yields: an idle timeout returns the current
best as a normal stop (lines 80-90), a stream error is propagated
(line 91). -/
def runRemote (cfg : Config) (target : String → Nat → Bool) :
    ScanState → String → List RemoteItem → Except String (Option GTIDPosition)
  | st, _, [] => .ok st.result
  | st, _, .timeout :: _ => .ok st.result
  | _, _, .fail msg :: _ => .error msg
  | st, file, .ev e :: rest =>
    match processRemoteEvent cfg target st file e with
    | .ret res => .ok res
    | .cont st' file' => runRemote cfg target st' file' rest

instance (scanRes : Nat → Option GTIDPosition) (numFiles : Nat) (ran : List Nat) :
    Decidable (admissibleRun scanRes numFiles ran) := by
  unfold admissibleRun; infer_instance

/-! ## Derived notions used by the theorems -/

/-- The GNO of the current best result, if any. -/
def resGno (st : ScanState) : Option Nat := st.result.map fun r => r.gno

/-- How the best GNO evolves at one commit: the commit branch keeps the
strictly larger transaction number (lines 228 and 245). -/
def gnoAcc : Option Nat → Nat → Option Nat
  | none, g => some g
  | some m, g => if g > m then some g else some m

/-- The ordering invariant of a returned position record. -/
def posInv (r : GTIDPosition) : Prop :=
  r.position ≤ r.commitPosition ∧ r.commitPosition ≤ r.resumePosition

/-- A well-formed binlog event header: the end offset is at least the
event size (the event lies inside the file) and fits in `uint32`. -/
def wfHeader (e : BinlogEvent) : Prop :=
  e.eventSize ≤ e.logPos ∧ e.logPos < UINT32

instance (e : BinlogEvent) : Decidable (wfHeader e) := by
  unfold wfHeader; infer_instance

/-! ## Concrete inputs used by counterexamples and witnesses -/

/-- A configuration with no time bounds and no database filter. -/
def cfgNone : Config := ⟨0, 0, ""⟩

/-- A configuration whose end-time bound is Unix second 150. -/
def cfgEnd150 : Config := ⟨0, 150, ""⟩

/-- The target set `U:1-100` as the single-GTID containment predicate the
tracker consults. -/
def targetU100 : String → Nat → Bool := fun u n =>
  u == "U" && decide (1 ≤ n) && decide (n ≤ 100)

/-- A GTID event for `U:gno` with the given end offset, size 100, Unix
second 5. -/
def gtidAt (gno lp : Nat) : BinlogEvent := ⟨5, lp, 100, .gtidEv "U" gno⟩

/-- An XID (commit) event with the given end offset, Unix second 5. -/
def xidAt (lp : Nat) : BinlogEvent := ⟨5, lp, 100, .xidEv⟩

/-- Committed in-range transaction `U:50`, then a later in-range GTID
event `U:60` (inside the target `U:1-100`) at end offset 2100. -/
def c1events : List BinlogEvent := [gtidAt 50 1000, xidAt 2000, gtidAt 60 2100]

/-- Two committed in-range transactions (`U:10`, `U:50`) and the
out-of-range boundary `U:200`. -/
def c2events : List BinlogEvent :=
  [gtidAt 10 500, xidAt 600, gtidAt 50 1500, xidAt 2000, gtidAt 200 2500]

/-- A GTID event whose size 200 exceeds its end offset 100, then its
commit: the uint32 start-position subtraction wraps. -/
def c4events : List BinlogEvent := [⟨5, 100, 200, .gtidEv "U" 50⟩, xidAt 2000]

/-- The result the tracker returns for `c4events`: the wrapped start
position `2^32 - 100`. -/
def c4rec : GTIDPosition :=
  ⟨"f", 4294967196, 2000, 2000, 5, "U:50", "U", 50, "", ""⟩

/-- An event at Unix second 200 (beyond the end bound 150 of
`cfgEnd150`), followed by an in-range transaction at second 100. -/
def c5events : List BinlogEvent :=
  [⟨200, 500, 100, .xidEv⟩, ⟨100, 1000, 100, .gtidEv "U" 50⟩, ⟨100, 2000, 100, .xidEv⟩]

/-- The result the tracker returns for `c5events` under `cfgEnd150`:
built entirely from the events after the bound-exceeding one. -/
def c5rec : GTIDPosition := ⟨"f", 900, 2000, 2000, 100, "U:50", "U", 50, "", ""⟩

/-- A published match in `fileA` with transaction number 10. -/
def pubA : GTIDPosition := ⟨"fileA", 900, 1000, 1000, 5, "U:10", "U", 10, "", ""⟩

/-- A published match in `fileB` with transaction number 99. -/
def pubB : GTIDPosition := ⟨"fileB", 900, 1000, 1000, 5, "U:99", "U", 99, "", ""⟩

/-- Per-file scan results for a two-file directory in which both files
contain an in-range match. -/
def twoMatchScan : Nat → Option GTIDPosition := fun i =>
  if i = 0 then some pubA else if i = 1 then some pubB else none

/-- The target `U:1-100` as an interval set, for the file selector. -/
def targetSetU100 : MGTIDSet := [⟨"U", 1, 100⟩]

/-- Parser fixture for the three header texts of the selector scenario. -/
def parseScen : String → Option MGTIDSet := fun t =>
  if t = "U:1-50" then some [⟨"U", 1, 50⟩]
  else if t = "U:1-80" then some [⟨"U", 1, 80⟩]
  else if t = "U:1-120" then some [⟨"U", 1, 120⟩]
  else none

/-- Header events of the three scenario files: previous-GTIDs sets
`U:1-50`, `U:1-80`, `U:1-120` in file order. -/
def scenHeaderEvents : Nat → List BinlogEvent := fun i =>
  [⟨0, 200, 50, .prevGTIDsEv
    (if i = 0 then "U:1-50" else if i = 1 then "U:1-80" else "U:1-120")⟩]

/-- The selector predicate of the scenario: probe file `i`'s header and
treat errors as false, exactly as the closure in
`FindStartFileUsingHeaders` does. -/
def scenPred : Nat → Bool := fun i =>
  headerPred (CheckPreviousGTIDs parseScen targetSetU100 (scenHeaderEvents i) none)

/-! ## Theorems -/

theorem runScanE_append (cfg : Config) (target : String → Nat → Bool) (file : String) :
    ∀ (l1 l2 : List BinlogEvent) (st : ScanState),
    runScanE cfg target file st (l1 ++ l2) =
      match runScanE cfg target file st l1 with
      | .completed st' => runScanE cfg target file st' l2
      | .stopped st' => .stopped st'
  | [], l2, st => rfl
  | e :: es, l2, st => by
    simp only [List.cons_append, runScanE]
    cases processEvent cfg target file st e with
    | cont st' => exact runScanE_append cfg target file es l2 st'
    | stopScan st' => rfl

theorem processEvent_cont_of_no_match (cfg : Config) (target : String → Nat → Bool)
    (file : String) (db : String) (e : BinlogEvent)
    (h : ∀ u n, e.body = .gtidEv u n → target u n = false) :
    ∃ db', processEvent cfg target file ⟨none, db, none⟩ e = .cont ⟨none, db', none⟩ := by
  unfold processEvent
  split
  · exact ⟨db, rfl⟩
  split
  · exact ⟨db, rfl⟩
  cases hb : e.body with
  | gtidEv u n =>
    simp only [hb, h u n hb, Bool.false_eq_true, if_false]
    exact ⟨db, rfl⟩
  | xidEv => exact ⟨db, by simp [hb]⟩
  | queryEv s q => exact ⟨if 0 < s.length then s else db, by simp [hb]⟩
  | prevGTIDsEv t => exact ⟨db, by simp [hb]⟩
  | rotateEv nx => exact ⟨db, by simp [hb]⟩
  | otherEv => exact ⟨db, by simp [hb]⟩

theorem runScanE_walk_no_match (cfg : Config) (target : String → Nat → Bool) (file : String) :
    ∀ (es : List BinlogEvent) (db : String),
    (∀ e ∈ es, ∀ u n, e.body = .gtidEv u n → target u n = false) →
    ∃ db', runScanE cfg target file ⟨none, db, none⟩ es = .completed ⟨none, db', none⟩
  | [], db, _ => ⟨db, rfl⟩
  | e :: es, db, h => by
    obtain ⟨db1, hdb1⟩ := processEvent_cont_of_no_match cfg target file db e
      (h e (List.mem_cons_self e es))
    obtain ⟨db', hdb'⟩ := runScanE_walk_no_match cfg target file es db1
      (fun e' he' => h e' (List.mem_cons_of_mem e he'))
    exact ⟨db', by simp only [runScanE, hdb1, hdb']⟩

theorem processEvent_cont_no_gtid_noct (cfg : Config) (target : String → Nat → Bool)
    (file : String) (st : ScanState) (e : BinlogEvent)
    (hg : ∀ u n, e.body ≠ .gtidEv u n) (hct : st.currentTransaction = none) :
    ∃ db', processEvent cfg target file st e = .cont ⟨st.result, db', none⟩ := by
  unfold processEvent
  split
  · exact ⟨st.currentDatabase, by rw [show st = ⟨st.result, st.currentDatabase, none⟩
      from by cases st; simp_all]⟩
  split
  · exact ⟨st.currentDatabase, by rw [show st = ⟨st.result, st.currentDatabase, none⟩
      from by cases st; simp_all]⟩
  cases hb : e.body with
  | gtidEv u n => exact absurd hb (hg u n)
  | xidEv => exact ⟨st.currentDatabase, by simp [hb, hct]⟩
  | queryEv s q => exact ⟨if 0 < s.length then s else st.currentDatabase, by simp [hb, hct]⟩
  | prevGTIDsEv t => exact ⟨st.currentDatabase, by simp [hb, hct]⟩
  | rotateEv nx => exact ⟨st.currentDatabase, by simp [hb, hct]⟩
  | otherEv => exact ⟨st.currentDatabase, by simp [hb, hct]⟩

theorem runScanE_walk_no_gtid (cfg : Config) (target : String → Nat → Bool) (file : String) :
    ∀ (es : List BinlogEvent) (st : ScanState),
    (∀ e ∈ es, ∀ u n, e.body ≠ .gtidEv u n) → st.currentTransaction = none →
    ∃ db', runScanE cfg target file st es = .completed ⟨st.result, db', none⟩
  | [], st, _, hct => ⟨st.currentDatabase, by
      cases st; simp_all [runScanE]⟩
  | e :: es, st, h, hct => by
    obtain ⟨db1, hdb1⟩ := processEvent_cont_no_gtid_noct cfg target file st e
      (h e (List.mem_cons_self e es)) hct
    obtain ⟨db', hdb'⟩ := runScanE_walk_no_gtid cfg target file es ⟨st.result, db1, none⟩
      (fun e' he' => h e' (List.mem_cons_of_mem e he')) rfl
    exact ⟨db', by simp only [runScanE, hdb1]; exact hdb'⟩

theorem processEvent_inflight (cfg : Config) (target : String → Nat → Bool)
    (file : String) (db : String) (ct0 : GTIDPosition) (e : BinlogEvent)
    (hg : ∀ u n, e.body ≠ .gtidEv u n) :
    (∃ db', processEvent cfg target file ⟨none, db, some ct0⟩ e =
      .cont ⟨none, db', some ct0⟩) ∨
    (∃ db', processEvent cfg target file ⟨none, db, some ct0⟩ e =
      .cont ⟨some { ct0 with
        commitPosition := e.logPos
        resumePosition := e.logPos
        timestamp := e.timestamp }, db', none⟩) := by
  unfold processEvent
  split
  · exact Or.inl ⟨db, rfl⟩
  split
  · exact Or.inl ⟨db, rfl⟩
  cases hb : e.body with
  | gtidEv u n => exact absurd hb (hg u n)
  | xidEv => exact Or.inr ⟨db, by simp [hb, isCommitBody]⟩
  | queryEv s q =>
    by_cases hq : (q == "COMMIT" || q == "commit") = true
    · exact Or.inr ⟨if 0 < s.length then s else db, by simp [hb, isCommitBody, hq]⟩
    · exact Or.inl ⟨if 0 < s.length then s else db, by simp [hb, isCommitBody, hq]⟩
  | prevGTIDsEv t => exact Or.inl ⟨db, by simp [hb, isCommitBody]⟩
  | rotateEv nx => exact Or.inl ⟨db, by simp [hb, isCommitBody]⟩
  | otherEv => exact Or.inl ⟨db, by simp [hb, isCommitBody]⟩

theorem runScanE_walk_inflight (cfg : Config) (target : String → Nat → Bool) (file : String) :
    ∀ (es : List BinlogEvent) (db : String) (ct0 : GTIDPosition),
    (∀ e ∈ es, ∀ u n, e.body ≠ .gtidEv u n) →
    (∃ db', runScanE cfg target file ⟨none, db, some ct0⟩ es =
      .completed ⟨none, db', some ct0⟩) ∨
    (∃ db' p ts, runScanE cfg target file ⟨none, db, some ct0⟩ es =
      .completed ⟨some { ct0 with
        commitPosition := p
        resumePosition := p
        timestamp := ts }, db', none⟩)
  | [], db, ct0, _ => Or.inl ⟨db, rfl⟩
  | e :: es, db, ct0, h => by
    rcases processEvent_inflight cfg target file db ct0 e
        (h e (List.mem_cons_self e es)) with ⟨db1, hdb1⟩ | ⟨db1, hdb1⟩
    · rcases runScanE_walk_inflight cfg target file es db1 ct0
        (fun e' he' => h e' (List.mem_cons_of_mem e he')) with ⟨db', hdb'⟩ | ⟨db', p, ts, hdb'⟩
      · exact Or.inl ⟨db', by simp only [runScanE, hdb1]; exact hdb'⟩
      · exact Or.inr ⟨db', p, ts, by simp only [runScanE, hdb1]; exact hdb'⟩
    · obtain ⟨db', hdb'⟩ := runScanE_walk_no_gtid cfg target file es
        ⟨some { ct0 with
          commitPosition := e.logPos
          resumePosition := e.logPos
          timestamp := e.timestamp }, db1, none⟩
        (fun e' he' => h e' (List.mem_cons_of_mem e he')) rfl
      exact Or.inr ⟨db', e.logPos, e.timestamp, by simp only [runScanE, hdb1]; exact hdb'⟩

theorem processEvent_open (cfg : Config) (target : String → Nat → Bool)
    (file : String) (st : ScanState) (e : BinlogEvent) (u : String) (n : Nat)
    (ht : timePass cfg e) (hb : e.body = .gtidEv u n) (hT : target u n = true)
    (hdb : ¬(cfg.filterDatabase ≠ "" ∧ st.currentDatabase ≠ cfg.filterDatabase)) :
    processEvent cfg target file st e = .cont ⟨st.result, st.currentDatabase,
      some ⟨file, sub32 e.logPos e.eventSize, e.logPos, e.logPos, e.timestamp,
        gtidString u n, u, n, st.currentDatabase, ""⟩⟩ := by
  obtain ⟨ht1, ht2⟩ := ht
  unfold processEvent
  rw [if_neg ht1, if_neg ht2]
  simp only [hb, hT, if_true, if_neg hdb]

theorem processEvent_boundary (cfg : Config) (target : String → Nat → Bool)
    (file : String) (db : String) (ct : Option GTIDPosition) (r : GTIDPosition)
    (e : BinlogEvent) (u : String) (n : Nat)
    (ht : timePass cfg e) (hb : e.body = .gtidEv u n) (hT : target u n = false)
    (hnext : r.nextGTID = "") :
    processEvent cfg target file ⟨some r, db, ct⟩ e =
      .stopScan ⟨some { r with
        nextGTID := gtidString u n
        resumePosition := e.logPos }, db, ct⟩ := by
  obtain ⟨ht1, ht2⟩ := ht
  unfold processEvent
  rw [if_neg ht1, if_neg ht2]
  simp only [hb, hT, Bool.false_eq_true, if_false, hnext, if_true]

theorem processEvent_commit_promote_first (cfg : Config) (target : String → Nat → Bool)
    (file : String) (db : String) (ct0 : GTIDPosition) (e : BinlogEvent)
    (hg : ∀ u n, e.body ≠ .gtidEv u n)
    (hc : isCommitBody e.body = true) (ht : timePass cfg e) :
    ∃ db', processEvent cfg target file ⟨none, db, some ct0⟩ e =
      .cont ⟨some { ct0 with
        commitPosition := e.logPos
        resumePosition := e.logPos
        timestamp := e.timestamp }, db', none⟩ := by
  obtain ⟨ht1, ht2⟩ := ht
  unfold processEvent
  rw [if_neg ht1, if_neg ht2]
  cases hb : e.body with
  | gtidEv u n => exact absurd hb (hg u n)
  | xidEv => exact ⟨db, by simp [hb, isCommitBody]⟩
  | queryEv s q =>
    rw [hb] at hc
    simp only [isCommitBody] at hc
    exact ⟨if 0 < s.length then s else db, by simp [hb, isCommitBody, hc]⟩
  | prevGTIDsEv t => rw [hb] at hc; simp [isCommitBody] at hc
  | rotateEv nx => rw [hb] at hc; simp [isCommitBody] at hc
  | otherEv => rw [hb] at hc; simp [isCommitBody] at hc

theorem timePass_of_no_bounds (cfg : Config) (e : BinlogEvent)
    (hstart : cfg.startTimestamp = 0) (hend : cfg.endTimestamp = 0) :
    timePass cfg e := by
  constructor
  · rw [hstart]; simp
  · rw [hend]; simp

theorem not_gtid_of_commit (b : EventBody) (hc : isCommitBody b = true) :
    ∀ u n, b ≠ .gtidEv u n := by
  intro u n h
  rw [h] at hc
  simp [isCommitBody] at hc

/-- C3: for every event sequence containing exactly one in-range transaction
that commits and no later GTID event before the stream ends, the returned
result satisfies `resume_position = commit_position` and `next_gtid` is the
empty string. -/
theorem tracker_single_commit (cfg : Config) (target : String → Nat → Bool) (file : String)
    (pre mid post : List BinlogEvent) (g c : BinlogEvent) (u : String) (n : Nat)
    (hstart : cfg.startTimestamp = 0) (hend : cfg.endTimestamp = 0)
    (hfdb : cfg.filterDatabase = "")
    (hpre : ∀ e ∈ pre, ∀ u' n', e.body = .gtidEv u' n' → target u' n' = false)
    (hgb : g.body = .gtidEv u n) (hgT : target u n = true)
    (hmid : ∀ e ∈ mid, ∀ u' n', e.body ≠ .gtidEv u' n')
    (hcb : isCommitBody c.body = true)
    (hpost : ∀ e ∈ post, ∀ u' n', e.body ≠ .gtidEv u' n') :
    ∃ r, (runScan cfg target file initState (pre ++ g :: (mid ++ c :: post))).result = some r ∧
      r.resumePosition = r.commitPosition ∧ r.nextGTID = "" := by
  obtain ⟨db1, hpre'⟩ := runScanE_walk_no_match cfg target file pre "" hpre
  have hopen := processEvent_open cfg target file ⟨none, db1, none⟩ g u n
    (timePass_of_no_bounds cfg g hstart hend) hgb hgT (by simp [hfdb])
  set ct0 : GTIDPosition := ⟨file, sub32 g.logPos g.eventSize, g.logPos, g.logPos,
    g.timestamp, gtidString u n, u, n, db1, ""⟩ with hct0
  -- state after `pre ++ [g]`: in-flight transaction ct0
  have hsplit : runScanE cfg target file initState (pre ++ g :: (mid ++ c :: post)) =
      runScanE cfg target file ⟨none, db1, some ct0⟩ (mid ++ c :: post) := by
    rw [show initState = (⟨none, "", none⟩ : ScanState) from rfl, runScanE_append]
    show (match runScanE cfg target file ⟨none, "", none⟩ pre with
      | .completed st' => runScanE cfg target file st' (g :: (mid ++ c :: post))
      | .stopped st' => .stopped st') = _
    rw [hpre']
    simp only [runScanE, hopen]
  -- walk `mid`, then `c`, then `post`
  rcases runScanE_walk_inflight cfg target file mid db1 ct0 hmid with
    ⟨db2, hmid'⟩ | ⟨db2, p, ts, hmid'⟩
  · -- transaction still in flight at `c`: `c` commits it
    obtain ⟨db3, hc'⟩ := processEvent_commit_promote_first cfg target file db2 ct0 c
      (not_gtid_of_commit c.body hcb) hcb (timePass_of_no_bounds cfg c hstart hend)
    obtain ⟨db4, hpost'⟩ := runScanE_walk_no_gtid cfg target file post
      ⟨some { ct0 with
        commitPosition := c.logPos
        resumePosition := c.logPos
        timestamp := c.timestamp }, db3, none⟩ hpost rfl
    refine ⟨{ ct0 with
      commitPosition := c.logPos
      resumePosition := c.logPos
      timestamp := c.timestamp }, ?_, rfl, by simp [hct0]⟩
    unfold runScan
    rw [hsplit, runScanE_append]
    show (match runScanE cfg target file ⟨none, db1, some ct0⟩ mid with
      | .completed st' => runScanE cfg target file st' (c :: post)
      | .stopped st' => .stopped st').state.result = _
    rw [hmid']
    simp only [runScanE, hc']
    rw [hpost']
    rfl
  · -- the transaction already committed inside `mid`; `c` is a no-op
    obtain ⟨db3, hc'⟩ := processEvent_cont_no_gtid_noct cfg target file
      ⟨some { ct0 with
        commitPosition := p
        resumePosition := p
        timestamp := ts }, db2, none⟩ c (not_gtid_of_commit c.body hcb) rfl
    obtain ⟨db4, hpost'⟩ := runScanE_walk_no_gtid cfg target file post
      ⟨some { ct0 with
        commitPosition := p
        resumePosition := p
        timestamp := ts }, db3, none⟩ hpost rfl
    refine ⟨{ ct0 with
      commitPosition := p
      resumePosition := p
      timestamp := ts }, ?_, rfl, by simp [hct0]⟩
    unfold runScan
    rw [hsplit, runScanE_append]
    show (match runScanE cfg target file ⟨none, db1, some ct0⟩ mid with
      | .completed st' => runScanE cfg target file st' (c :: post)
      | .stopped st' => .stopped st').state.result = _
    rw [hmid']
    simp only [runScanE, hc']
    rw [hpost']
    rfl

/-- C1 (amended): for every event sequence containing an in-range committed
transaction followed — with no intervening GTID events — by a GTID event whose
GTID is NOT contained in the target set, the returned result's
`resume_position` equals that event's end offset (`log_position`) and
`next_gtid` equals its GTID string, regardless of what follows in the
sequence; at the moment this boundary is recorded the scan terminates
immediately (the run ends `stopped` at that event, for every suffix). -/
theorem tracker_boundary (cfg : Config) (target : String → Nat → Bool) (file : String)
    (pre mid mid2 post : List BinlogEvent) (g c b : BinlogEvent)
    (u : String) (n : Nat) (u2 : String) (n2 : Nat)
    (hstart : cfg.startTimestamp = 0) (hend : cfg.endTimestamp = 0)
    (hfdb : cfg.filterDatabase = "")
    (hpre : ∀ e ∈ pre, ∀ u' n', e.body = .gtidEv u' n' → target u' n' = false)
    (hgb : g.body = .gtidEv u n) (hgT : target u n = true)
    (hmid : ∀ e ∈ mid, ∀ u' n', e.body ≠ .gtidEv u' n')
    (hcb : isCommitBody c.body = true)
    (hmid2 : ∀ e ∈ mid2, ∀ u' n', e.body ≠ .gtidEv u' n')
    (hbb : b.body = .gtidEv u2 n2) (hbT : target u2 n2 = false) :
    ∃ st, runScanE cfg target file initState
        (pre ++ g :: (mid ++ c :: (mid2 ++ b :: post))) = .stopped st ∧
      ∃ r, st.result = some r ∧ r.resumePosition = b.logPos ∧
        r.nextGTID = gtidString u2 n2 := by
  obtain ⟨db1, hpre'⟩ := runScanE_walk_no_match cfg target file pre "" hpre
  have hopen := processEvent_open cfg target file ⟨none, db1, none⟩ g u n
    (timePass_of_no_bounds cfg g hstart hend) hgb hgT (by simp [hfdb])
  set ct0 : GTIDPosition := ⟨file, sub32 g.logPos g.eventSize, g.logPos, g.logPos,
    g.timestamp, gtidString u n, u, n, db1, ""⟩ with hct0
  have hsplit : runScanE cfg target file initState
      (pre ++ g :: (mid ++ c :: (mid2 ++ b :: post))) =
      runScanE cfg target file ⟨none, db1, some ct0⟩ (mid ++ c :: (mid2 ++ b :: post)) := by
    rw [show initState = (⟨none, "", none⟩ : ScanState) from rfl, runScanE_append]
    show (match runScanE cfg target file ⟨none, "", none⟩ pre with
      | .completed st' => runScanE cfg target file st' (g :: (mid ++ c :: (mid2 ++ b :: post)))
      | .stopped st' => .stopped st') = _
    rw [hpre']
    simp only [runScanE, hopen]
  -- after `mid` and `c` the best result `rc` is committed with no next GTID yet
  have hcore : ∃ rc db4, rc.nextGTID = "" ∧
      runScanE cfg target file ⟨none, db1, some ct0⟩ (mid ++ c :: mid2) =
        .completed ⟨some rc, db4, none⟩ := by
    rcases runScanE_walk_inflight cfg target file mid db1 ct0 hmid with
      ⟨db2, hmid'⟩ | ⟨db2, p, ts, hmid'⟩
    · obtain ⟨db3, hc'⟩ := processEvent_commit_promote_first cfg target file db2 ct0 c
        (not_gtid_of_commit c.body hcb) hcb (timePass_of_no_bounds cfg c hstart hend)
      obtain ⟨db4, hmid2'⟩ := runScanE_walk_no_gtid cfg target file mid2
        ⟨some { ct0 with
          commitPosition := c.logPos
          resumePosition := c.logPos
          timestamp := c.timestamp }, db3, none⟩ hmid2 rfl
      refine ⟨{ ct0 with
        commitPosition := c.logPos
        resumePosition := c.logPos
        timestamp := c.timestamp }, db4, by simp [hct0], ?_⟩
      rw [runScanE_append]
      show (match runScanE cfg target file ⟨none, db1, some ct0⟩ mid with
        | .completed st' => runScanE cfg target file st' (c :: mid2)
        | .stopped st' => .stopped st') = _
      rw [hmid']
      simp only [runScanE, hc']
      exact hmid2'
    · obtain ⟨db3, hc'⟩ := processEvent_cont_no_gtid_noct cfg target file
        ⟨some { ct0 with
          commitPosition := p
          resumePosition := p
          timestamp := ts }, db2, none⟩ c (not_gtid_of_commit c.body hcb) rfl
      obtain ⟨db4, hmid2'⟩ := runScanE_walk_no_gtid cfg target file mid2
        ⟨some { ct0 with
          commitPosition := p
          resumePosition := p
          timestamp := ts }, db3, none⟩ hmid2 rfl
      refine ⟨{ ct0 with
        commitPosition := p
        resumePosition := p
        timestamp := ts }, db4, by simp [hct0], ?_⟩
      rw [runScanE_append]
      show (match runScanE cfg target file ⟨none, db1, some ct0⟩ mid with
        | .completed st' => runScanE cfg target file st' (c :: mid2)
        | .stopped st' => .stopped st') = _
      rw [hmid']
      simp only [runScanE, hc']
      exact hmid2'
  obtain ⟨rc, db4, hnext, hcore'⟩ := hcore
  have hb' := processEvent_boundary cfg target file db4 none rc b u2 n2
    (timePass_of_no_bounds cfg b hstart hend) hbb hbT hnext
  refine ⟨⟨some { rc with
      nextGTID := gtidString u2 n2
      resumePosition := b.logPos }, db4, none⟩, ?_, _, rfl, rfl, rfl⟩
  rw [hsplit]
  have : mid ++ c :: (mid2 ++ b :: post) = (mid ++ c :: mid2) ++ (b :: post) := by
    simp
  rw [this, runScanE_append]
  show (match runScanE cfg target file ⟨none, db1, some ct0⟩ (mid ++ c :: mid2) with
    | .completed st' => runScanE cfg target file st' (b :: post)
    | .stopped st' => .stopped st') = _
  rw [hcore']
  simp only [runScanE, hb']

theorem resGno_stopScan (cfg : Config) (target : String → Nat → Bool) (file : String)
    (st : ScanState) (e : BinlogEvent) (st' : ScanState)
    (h : processEvent cfg target file st e = .stopScan st') :
    resGno st' = resGno st := by
  unfold processEvent at h
  by_cases h1 : cfg.startTimestamp > 0 ∧ e.timestamp < cfg.startTimestamp
  · rw [if_pos h1] at h; simp at h
  rw [if_neg h1] at h
  by_cases h2 : cfg.endTimestamp > 0 ∧ e.timestamp > cfg.endTimestamp
  · rw [if_pos h2] at h; simp at h
  rw [if_neg h2] at h
  cases hb : e.body with
  | gtidEv u n =>
    rw [hb] at h
    dsimp only [] at h
    by_cases hT : target u n = true
    · rw [if_pos hT] at h
      by_cases hF : cfg.filterDatabase ≠ "" ∧ st.currentDatabase ≠ cfg.filterDatabase
      · rw [if_pos hF] at h; simp at h
      · rw [if_neg hF] at h; simp at h
    · rw [if_neg hT] at h
      cases hr : st.result with
      | none => rw [hr] at h; simp at h
      | some r =>
        rw [hr] at h
        dsimp only [] at h
        by_cases hnx : r.nextGTID = ""
        · rw [if_pos hnx] at h
          injection h with h'
          subst h'
          simp [resGno, hr]
        · rw [if_neg hnx] at h; simp at h
  | xidEv =>
    rw [hb] at h
    dsimp only [] at h
    cases hct : st.currentTransaction with
    | none => rw [hct] at h; simp at h
    | some ct => rw [hct] at h; simp [isCommitBody] at h
  | queryEv sc q =>
    rw [hb] at h
    dsimp only [] at h
    cases hct : st.currentTransaction with
    | none => rw [hct] at h; simp at h
    | some ct =>
      rw [hct] at h
      dsimp only [] at h
      by_cases hq : isCommitBody (.queryEv sc q) = true
      · rw [if_pos hq] at h; simp at h
      · rw [if_neg hq] at h; simp at h
  | prevGTIDsEv t =>
    rw [hb] at h
    dsimp only [] at h
    cases hct : st.currentTransaction with
    | none => rw [hct] at h; simp at h
    | some ct => rw [hct] at h; simp [isCommitBody] at h
  | rotateEv nx =>
    rw [hb] at h
    dsimp only [] at h
    cases hct : st.currentTransaction with
    | none => rw [hct] at h; simp at h
    | some ct => rw [hct] at h; simp [isCommitBody] at h
  | otherEv =>
    rw [hb] at h
    dsimp only [] at h
    cases hct : st.currentTransaction with
    | none => rw [hct] at h; simp at h
    | some ct => rw [hct] at h; simp [isCommitBody] at h

theorem resGno_cont_commit (cfg : Config) (target : String → Nat → Bool) (file : String)
    (st : ScanState) (e : BinlogEvent) (st' : ScanState) (ct : GTIDPosition)
    (ht : timePass cfg e) (hct : st.currentTransaction = some ct)
    (hcb : isCommitBody e.body = true)
    (h : processEvent cfg target file st e = .cont st') :
    resGno st' = gnoAcc (resGno st) ct.gno := by
  obtain ⟨h1, h2⟩ := ht
  unfold processEvent at h
  rw [if_neg h1, if_neg h2] at h
  cases hb : e.body with
  | gtidEv u n => rw [hb] at hcb; simp [isCommitBody] at hcb
  | xidEv =>
    rw [hb] at h
    dsimp only [] at h
    rw [hct] at h
    dsimp only [isCommitBody] at h
    rw [if_pos rfl] at h
    injection h with h'
    subst h'
    cases hr : st.result with
    | none => simp [resGno, gnoAcc, hr]
    | some r =>
      by_cases hgt : ct.gno > r.gno <;> simp [resGno, gnoAcc, hr, hgt]
  | queryEv sc q =>
    rw [hb] at h
    dsimp only [] at h
    rw [hct] at h
    dsimp only [] at h
    rw [hb] at hcb
    rw [if_pos hcb] at h
    injection h with h'
    subst h'
    cases hr : st.result with
    | none => simp [resGno, gnoAcc, hr]
    | some r =>
      by_cases hgt : ct.gno > r.gno <;> simp [resGno, gnoAcc, hr, hgt]
  | prevGTIDsEv t => rw [hb] at hcb; simp [isCommitBody] at hcb
  | rotateEv nx => rw [hb] at hcb; simp [isCommitBody] at hcb
  | otherEv => rw [hb] at hcb; simp [isCommitBody] at hcb

theorem resGno_cont_nocommit (cfg : Config) (target : String → Nat → Bool) (file : String)
    (st : ScanState) (e : BinlogEvent) (st' : ScanState)
    (hno : ¬(timePass cfg e ∧ st.currentTransaction ≠ none ∧ isCommitBody e.body = true))
    (h : processEvent cfg target file st e = .cont st') :
    resGno st' = resGno st := by
  unfold processEvent at h
  by_cases h1 : cfg.startTimestamp > 0 ∧ e.timestamp < cfg.startTimestamp
  · rw [if_pos h1] at h; injection h with h'; subst h'; rfl
  rw [if_neg h1] at h
  by_cases h2 : cfg.endTimestamp > 0 ∧ e.timestamp > cfg.endTimestamp
  · rw [if_pos h2] at h; injection h with h'; subst h'; rfl
  rw [if_neg h2] at h
  have ht : timePass cfg e := ⟨h1, h2⟩
  cases hb : e.body with
  | gtidEv u n =>
    rw [hb] at h
    dsimp only [] at h
    by_cases hT : target u n = true
    · rw [if_pos hT] at h
      by_cases hF : cfg.filterDatabase ≠ "" ∧ st.currentDatabase ≠ cfg.filterDatabase
      · rw [if_pos hF] at h; injection h with h'; subst h'; rfl
      · rw [if_neg hF] at h; injection h with h'; subst h'; rfl
    · rw [if_neg hT] at h
      cases hr : st.result with
      | none => rw [hr] at h; injection h with h'; subst h'; simp [resGno, hr]
      | some r =>
        rw [hr] at h
        dsimp only [] at h
        by_cases hnx : r.nextGTID = ""
        · rw [if_pos hnx] at h; simp at h
        · rw [if_neg hnx] at h; injection h with h'; subst h'; simp [resGno, hr]
  | xidEv =>
    rw [hb] at h
    dsimp only [] at h
    cases hct : st.currentTransaction with
    | none => rw [hct] at h; injection h with h'; subst h'; rfl
    | some ct =>
      exact absurd ⟨ht, by rw [hct]; simp, by rw [hb]; simp [isCommitBody]⟩ hno
  | queryEv sc q =>
    rw [hb] at h
    dsimp only [] at h
    cases hct : st.currentTransaction with
    | none => rw [hct] at h; injection h with h'; subst h'; rfl
    | some ct =>
      rw [hct] at h
      dsimp only [] at h
      by_cases hq : isCommitBody (.queryEv sc q) = true
      · exact absurd ⟨ht, by rw [hct]; simp, by rw [hb]; exact hq⟩ hno
      · rw [if_neg hq] at h; injection h with h'; subst h'; rfl
  | prevGTIDsEv t =>
    rw [hb] at h
    dsimp only [] at h
    cases hct : st.currentTransaction with
    | none => rw [hct] at h; injection h with h'; subst h'; rfl
    | some ct =>
      rw [hct] at h
      simp only [isCommitBody, Bool.false_eq_true, if_false] at h
      injection h with h'; subst h'; rfl
  | rotateEv nx =>
    rw [hb] at h
    dsimp only [] at h
    cases hct : st.currentTransaction with
    | none => rw [hct] at h; injection h with h'; subst h'; rfl
    | some ct =>
      rw [hct] at h
      simp only [isCommitBody, Bool.false_eq_true, if_false] at h
      injection h with h'; subst h'; rfl
  | otherEv =>
    rw [hb] at h
    dsimp only [] at h
    cases hct : st.currentTransaction with
    | none => rw [hct] at h; injection h with h'; subst h'; rfl
    | some ct =>
      rw [hct] at h
      simp only [isCommitBody, Bool.false_eq_true, if_false] at h
      injection h with h'; subst h'; rfl

theorem resGno_foldl (cfg : Config) (target : String → Nat → Bool) (file : String) :
    ∀ (es : List BinlogEvent) (st : ScanState),
    resGno (runScan cfg target file st es) =
      (commitsDuring cfg target file st es).foldl gnoAcc (resGno st)
  | [], st => rfl
  | e :: es, st => by
    have IH := fun st' => resGno_foldl cfg target file es st'
    cases hpe : processEvent cfg target file st e with
    | stopScan st' =>
      unfold runScan
      simp only [runScanE, commitsDuring, hpe, List.foldl_nil, ScanEnd.state]
      exact resGno_stopScan cfg target file st e st' hpe
    | cont st' =>
      unfold runScan
      simp only [runScanE, commitsDuring, hpe]
      by_cases htp : timePass cfg e
      · rw [if_pos htp]
        cases hct : st.currentTransaction with
        | some ct =>
          dsimp only []
          by_cases hcb : isCommitBody e.body = true
          · rw [if_pos hcb]
            simp only [List.foldl_cons]
            rw [← resGno_cont_commit cfg target file st e st' ct htp hct hcb hpe]
            exact IH st'
          · rw [if_neg hcb]
            rw [← resGno_cont_nocommit cfg target file st e st'
              (fun hc => hcb hc.2.2) hpe]
            exact IH st'
        | none =>
          dsimp only []
          rw [← resGno_cont_nocommit cfg target file st e st'
            (fun hc => hc.2.1 hct) hpe]
          exact IH st'
      · rw [if_neg htp]
        rw [← resGno_cont_nocommit cfg target file st e st'
          (fun hc => htp hc.1) hpe]
        exact IH st'

theorem foldl_gnoAcc_max :
    ∀ (cs : List Nat) (m0 m : Nat),
    cs.foldl gnoAcc (some m0) = some m →
    (m ∈ cs ∨ m = m0) ∧ (∀ g ∈ cs, g ≤ m) ∧ m0 ≤ m
  | [], m0, m, h => by
    simp [List.foldl_nil] at h
    subst h
    exact ⟨Or.inr rfl, by simp, le_refl _⟩
  | g :: cs, m0, m, h => by
    simp only [List.foldl_cons, gnoAcc] at h
    by_cases hgt : g > m0
    · rw [if_pos hgt] at h
      obtain ⟨hmem, hall, hle⟩ := foldl_gnoAcc_max cs g m h
      refine ⟨?_, ?_, ?_⟩
      · rcases hmem with hm | hm
        · exact Or.inl (List.mem_cons_of_mem g hm)
        · exact Or.inl (hm ▸ List.mem_cons_self g cs)
      · intro g' hg'
        rcases List.mem_cons.mp hg' with hg' | hg'
        · exact hg' ▸ hle
        · exact hall g' hg'
      · exact le_of_lt (lt_of_lt_of_le hgt hle)
    · rw [if_neg hgt] at h
      obtain ⟨hmem, hall, hle⟩ := foldl_gnoAcc_max cs m0 m h
      refine ⟨?_, ?_, ?_⟩
      · rcases hmem with hm | hm
        · exact Or.inl (List.mem_cons_of_mem g hm)
        · exact Or.inr hm
      · intro g' hg'
        rcases List.mem_cons.mp hg' with hg' | hg'
        · exact hg' ▸ le_trans (le_of_not_lt hgt) hle
        · exact hall g' hg'
      · exact hle

theorem foldl_gnoAcc_none :
    ∀ (cs : List Nat) (m : Nat),
    cs.foldl gnoAcc none = some m →
    m ∈ cs ∧ ∀ g ∈ cs, g ≤ m
  | [], m, h => by simp [List.foldl_nil] at h
  | g :: cs, m, h => by
    simp only [List.foldl_cons, gnoAcc] at h
    obtain ⟨hmem, hall, hle⟩ := foldl_gnoAcc_max cs g m h
    refine ⟨?_, ?_⟩
    · rcases hmem with hm | hm
      · exact List.mem_cons_of_mem g hm
      · exact hm ▸ List.mem_cons_self g cs
    · intro g' hg'
      rcases List.mem_cons.mp hg' with hg' | hg'
      · exact hg' ▸ hle
      · exact hall g' hg'

/-- C2: for every event sequence, whenever the Tracker returns a result, its
transaction number is one of the transaction numbers that completed commit
during that scan, and is greater than or equal to every committed match's
transaction number — i.e. the Tracker returns the committed match with the
highest gno observed in the scan. -/
theorem tracker_highest_committed_gno (cfg : Config) (target : String → Nat → Bool)
    (file : String) (events : List BinlogEvent) (r : GTIDPosition)
    (h : (runScan cfg target file initState events).result = some r) :
    r.gno ∈ commitsDuring cfg target file initState events ∧
    ∀ g ∈ commitsDuring cfg target file initState events, g ≤ r.gno := by
  have hf := resGno_foldl cfg target file events initState
  have h0 : resGno initState = none := rfl
  rw [h0] at hf
  have h1 : resGno (runScan cfg target file initState events) = some r.gno := by
    simp [resGno, h]
  rw [h1] at hf
  exact foldl_gnoAcc_none _ _ hf.symm

theorem sub32_of_le (a b : Nat) (hba : b ≤ a) (ha : a < UINT32) : sub32 a b = a - b := by
  unfold sub32 UINT32 at *
  rw [Nat.mod_eq_of_lt ha, Nat.mod_eq_of_lt (lt_of_le_of_lt hba ha)]
  omega

theorem stopScan_inv_step (cfg : Config) (target : String → Nat → Bool) (file : String)
    (st : ScanState) (e : BinlogEvent) (st' : ScanState)
    (h : processEvent cfg target file st e = .stopScan st')
    (hres : ∀ r, st.result = some r → posInv r ∧ r.commitPosition ≤ e.logPos) :
    ∀ r, st'.result = some r → posInv r := by
  unfold processEvent at h
  by_cases h1 : cfg.startTimestamp > 0 ∧ e.timestamp < cfg.startTimestamp
  · rw [if_pos h1] at h; simp at h
  rw [if_neg h1] at h
  by_cases h2 : cfg.endTimestamp > 0 ∧ e.timestamp > cfg.endTimestamp
  · rw [if_pos h2] at h; simp at h
  rw [if_neg h2] at h
  cases hb : e.body with
  | gtidEv u n =>
    rw [hb] at h
    dsimp only [] at h
    by_cases hT : target u n = true
    · rw [if_pos hT] at h
      by_cases hF : cfg.filterDatabase ≠ "" ∧ st.currentDatabase ≠ cfg.filterDatabase
      · rw [if_pos hF] at h; simp at h
      · rw [if_neg hF] at h; simp at h
    · rw [if_neg hT] at h
      cases hr : st.result with
      | none => rw [hr] at h; simp at h
      | some r0 =>
        rw [hr] at h
        dsimp only [] at h
        by_cases hnx : r0.nextGTID = ""
        · rw [if_pos hnx] at h
          injection h with h'
          subst h'
          intro r hrr
          simp only [Option.some_inj] at hrr
          subst hrr
          obtain ⟨⟨hpc, _⟩, hcb⟩ := hres r0 hr
          exact ⟨hpc, hcb⟩
        · rw [if_neg hnx] at h; simp at h
  | xidEv =>
    rw [hb] at h
    dsimp only [] at h
    cases hct : st.currentTransaction with
    | none => rw [hct] at h; simp at h
    | some ct => rw [hct] at h; simp [isCommitBody] at h
  | queryEv sc q =>
    rw [hb] at h
    dsimp only [] at h
    cases hct : st.currentTransaction with
    | none => rw [hct] at h; simp at h
    | some ct =>
      rw [hct] at h
      dsimp only [] at h
      by_cases hq : isCommitBody (.queryEv sc q) = true
      · rw [if_pos hq] at h; simp at h
      · rw [if_neg hq] at h; simp at h
  | prevGTIDsEv t =>
    rw [hb] at h
    dsimp only [] at h
    cases hct : st.currentTransaction with
    | none => rw [hct] at h; simp at h
    | some ct => rw [hct] at h; simp [isCommitBody] at h
  | rotateEv nx =>
    rw [hb] at h
    dsimp only [] at h
    cases hct : st.currentTransaction with
    | none => rw [hct] at h; simp at h
    | some ct => rw [hct] at h; simp [isCommitBody] at h
  | otherEv =>
    rw [hb] at h
    dsimp only [] at h
    cases hct : st.currentTransaction with
    | none => rw [hct] at h; simp at h
    | some ct => rw [hct] at h; simp [isCommitBody] at h

theorem cont_inv_step (cfg : Config) (target : String → Nat → Bool) (file : String)
    (st : ScanState) (e : BinlogEvent) (st' : ScanState)
    (h : processEvent cfg target file st e = .cont st')
    (hwf : wfHeader e)
    (hres : ∀ r, st.result = some r → posInv r ∧ r.commitPosition ≤ e.logPos)
    (hct : ∀ ct, st.currentTransaction = some ct →
      ct.position ≤ ct.commitPosition ∧ ct.commitPosition ≤ e.logPos) :
    (∀ r, st'.result = some r → posInv r ∧ r.commitPosition ≤ e.logPos) ∧
    (∀ ct, st'.currentTransaction = some ct →
      ct.position ≤ ct.commitPosition ∧ ct.commitPosition ≤ e.logPos) := by
  unfold processEvent at h
  by_cases h1 : cfg.startTimestamp > 0 ∧ e.timestamp < cfg.startTimestamp
  · rw [if_pos h1] at h
    injection h with h'
    subst h'
    exact ⟨hres, hct⟩
  rw [if_neg h1] at h
  by_cases h2 : cfg.endTimestamp > 0 ∧ e.timestamp > cfg.endTimestamp
  · rw [if_pos h2] at h
    injection h with h'
    subst h'
    exact ⟨hres, hct⟩
  rw [if_neg h2] at h
  cases hb : e.body with
  | gtidEv u n =>
    rw [hb] at h
    dsimp only [] at h
    by_cases hT : target u n = true
    · rw [if_pos hT] at h
      by_cases hF : cfg.filterDatabase ≠ "" ∧ st.currentDatabase ≠ cfg.filterDatabase
      · rw [if_pos hF] at h
        injection h with h'
        subst h'
        exact ⟨hres, by simp⟩
      · rw [if_neg hF] at h
        injection h with h'
        subst h'
        refine ⟨hres, ?_⟩
        intro ct hctr
        simp only [Option.some_inj] at hctr
        subst hctr
        refine ⟨?_, le_refl _⟩
        rw [sub32_of_le e.logPos e.eventSize hwf.1 hwf.2]
        exact Nat.sub_le _ _
    · rw [if_neg hT] at h
      cases hr : st.result with
      | none =>
        rw [hr] at h
        injection h with h'
        subst h'
        exact ⟨fun r hrr => (hres r (hr ▸ hrr)), by simp⟩
      | some r0 =>
        rw [hr] at h
        dsimp only [] at h
        by_cases hnx : r0.nextGTID = ""
        · rw [if_pos hnx] at h; simp at h
        · rw [if_neg hnx] at h
          injection h with h'
          subst h'
          exact ⟨fun r hrr => hres r (by rw [hr]; exact hrr), by simp⟩
  | xidEv =>
    rw [hb] at h
    dsimp only [] at h
    cases hctr : st.currentTransaction with
    | none =>
      rw [hctr] at h
      injection h with h'
      subst h'
      exact ⟨hres, by simp⟩
    | some ct =>
      rw [hctr] at h
      dsimp only [isCommitBody] at h
      rw [if_pos rfl] at h
      injection h with h'
      subst h'
      refine ⟨?_, by simp⟩
      intro r hrr
      dsimp only [] at hrr
      obtain ⟨hp1, hp2⟩ := hct ct hctr
      cases hr : st.result with
      | none =>
        rw [hr] at hrr
        dsimp only [] at hrr
        simp only [Option.some_inj] at hrr
        subst hrr
        exact ⟨⟨le_trans hp1 hp2, le_refl _⟩, le_refl _⟩
      | some r0 =>
        rw [hr] at hrr
        dsimp only [] at hrr
        by_cases hgt : ct.gno > r0.gno
        · rw [if_pos hgt] at hrr
          simp only [Option.some_inj] at hrr
          subst hrr
          exact ⟨⟨le_trans hp1 hp2, le_refl _⟩, le_refl _⟩
        · rw [if_neg hgt] at hrr
          simp only [Option.some_inj] at hrr
          subst hrr
          exact hres r0 hr
  | queryEv sc q =>
    rw [hb] at h
    dsimp only [] at h
    cases hctr : st.currentTransaction with
    | none =>
      rw [hctr] at h
      injection h with h'
      subst h'
      exact ⟨hres, by simp⟩
    | some ct =>
      rw [hctr] at h
      dsimp only [] at h
      by_cases hq : isCommitBody (.queryEv sc q) = true
      · rw [if_pos hq] at h
        injection h with h'
        subst h'
        refine ⟨?_, by simp⟩
        intro r hrr
        dsimp only [] at hrr
        obtain ⟨hp1, hp2⟩ := hct ct hctr
        cases hr : st.result with
        | none =>
          rw [hr] at hrr
          dsimp only [] at hrr
          simp only [Option.some_inj] at hrr
          subst hrr
          exact ⟨⟨le_trans hp1 hp2, le_refl _⟩, le_refl _⟩
        | some r0 =>
          rw [hr] at hrr
          dsimp only [] at hrr
          by_cases hgt : ct.gno > r0.gno
          · rw [if_pos hgt] at hrr
            simp only [Option.some_inj] at hrr
            subst hrr
            exact ⟨⟨le_trans hp1 hp2, le_refl _⟩, le_refl _⟩
          · rw [if_neg hgt] at hrr
            simp only [Option.some_inj] at hrr
            subst hrr
            exact hres r0 hr
      · rw [if_neg hq] at h
        injection h with h'
        subst h'
        exact ⟨hres, fun c hc => by
          simp only [Option.some_inj] at hc
          exact hc ▸ hct ct hctr⟩
  | prevGTIDsEv t =>
    rw [hb] at h
    dsimp only [] at h
    cases hctr : st.currentTransaction with
    | none =>
      rw [hctr] at h
      injection h with h'
      subst h'
      exact ⟨hres, by simp⟩
    | some ct =>
      rw [hctr] at h
      simp only [isCommitBody, Bool.false_eq_true, if_false] at h
      injection h with h'
      subst h'
      exact ⟨hres, fun c hc => by
        simp only [Option.some_inj] at hc
        exact hc ▸ hct ct hctr⟩
  | rotateEv nx =>
    rw [hb] at h
    dsimp only [] at h
    cases hctr : st.currentTransaction with
    | none =>
      rw [hctr] at h
      injection h with h'
      subst h'
      exact ⟨hres, by simp⟩
    | some ct =>
      rw [hctr] at h
      simp only [isCommitBody, Bool.false_eq_true, if_false] at h
      injection h with h'
      subst h'
      exact ⟨hres, fun c hc => by
        simp only [Option.some_inj] at hc
        exact hc ▸ hct ct hctr⟩
  | otherEv =>
    rw [hb] at h
    dsimp only [] at h
    cases hctr : st.currentTransaction with
    | none =>
      rw [hctr] at h
      injection h with h'
      subst h'
      exact ⟨hres, by simp⟩
    | some ct =>
      rw [hctr] at h
      simp only [isCommitBody, Bool.false_eq_true, if_false] at h
      injection h with h'
      subst h'
      exact ⟨hres, fun c hc => by
        simp only [Option.some_inj] at hc
        exact hc ▸ hct ct hctr⟩

theorem scan_posInv (cfg : Config) (target : String → Nat → Bool) (file : String) :
    ∀ (es : List BinlogEvent) (st : ScanState) (b : Nat),
    (∀ e ∈ es, wfHeader e) →
    es.Pairwise (fun e1 e2 => e1.logPos ≤ e2.logPos) →
    (∀ e ∈ es, b ≤ e.logPos) →
    (∀ r, st.result = some r → posInv r ∧ r.commitPosition ≤ b) →
    (∀ ct, st.currentTransaction = some ct →
      ct.position ≤ ct.commitPosition ∧ ct.commitPosition ≤ b) →
    ∀ r, (runScan cfg target file st es).result = some r → posInv r
  | [], st, b, _, _, _, hres, _, r, h => (hres r h).1
  | e :: es, st, b, hwf, hmono, hb, hres, hct, r, h => by
    obtain ⟨hhead, htail⟩ := List.pairwise_cons.mp hmono
    have hble : b ≤ e.logPos := hb e (List.mem_cons_self e es)
    have hres' : ∀ r, st.result = some r → posInv r ∧ r.commitPosition ≤ e.logPos :=
      fun r hr => ⟨(hres r hr).1, le_trans (hres r hr).2 hble⟩
    have hct' : ∀ ct, st.currentTransaction = some ct →
        ct.position ≤ ct.commitPosition ∧ ct.commitPosition ≤ e.logPos :=
      fun ct hc => ⟨(hct ct hc).1, le_trans (hct ct hc).2 hble⟩
    cases hpe : processEvent cfg target file st e with
    | stopScan st' =>
      have hrun : runScan cfg target file st (e :: es) = st' := by
        unfold runScan
        simp only [runScanE, hpe, ScanEnd.state]
      rw [hrun] at h
      exact stopScan_inv_step cfg target file st e st' hpe hres' r h
    | cont st' =>
      have hrun : runScan cfg target file st (e :: es) = runScan cfg target file st' es := by
        unfold runScan
        simp only [runScanE, hpe]
      rw [hrun] at h
      obtain ⟨hres2, hct2⟩ := cont_inv_step cfg target file st e st' hpe
        (hwf e (List.mem_cons_self e es)) hres' hct'
      exact scan_posInv cfg target file es st' e.logPos
        (fun e' he' => hwf e' (List.mem_cons_of_mem e he'))
        htail hhead hres2 hct2 r h

/-- C4 (amended): for every event sequence whose events are well-formed
(`event_size ≤ log_position < 2^32`) and whose end offsets are non-decreasing,
every `GTIDPosition` the Tracker returns satisfies
`position ≤ commit_position ≤ resume_position`. -/
theorem tracker_ordering_invariant (cfg : Config) (target : String → Nat → Bool)
    (file : String) (events : List BinlogEvent) (r : GTIDPosition)
    (hwf : ∀ e ∈ events, wfHeader e)
    (hmono : events.Pairwise (fun e1 e2 => e1.logPos ≤ e2.logPos))
    (h : (runScan cfg target file initState events).result = some r) :
    r.position ≤ r.commitPosition ∧ r.commitPosition ≤ r.resumePosition :=
  scan_posInv cfg target file events initState 0 hwf hmono
    (fun e _ => Nat.zero_le _) (fun r hr => by simp [initState] at hr)
    (fun ct hc => by simp [initState] at hc) r h

theorem sortSearchAux_spec (f : Nat → Bool) (n : Nat)
    (hm : ∀ j, j < n → ∀ i, i ≤ j → f i = true → f j = true) :
    ∀ (k i j : Nat), j - i ≤ k → i ≤ j → j ≤ n →
    (∀ x, x < i → f x = false) → (∀ x, j ≤ x → x < n → f x = true) →
    i ≤ sortSearchAux f i j ∧ sortSearchAux f i j ≤ j ∧
    (∀ x, x < sortSearchAux f i j → f x = false) ∧
    (∀ x, sortSearchAux f i j ≤ x → x < n → f x = true)
  | 0, i, j, hk, hij, hjn, hlow, hhigh => by
    have hji : i = j := by omega
    subst hji
    rw [sortSearchAux]
    simp only [lt_irrefl, dite_false]
    exact ⟨le_refl _, le_refl _, hlow, hhigh⟩
  | k + 1, i, j, hk, hij, hjn, hlow, hhigh => by
    rw [sortSearchAux]
    by_cases hij' : i < j
    · rw [dif_pos hij']
      by_cases hf : f ((i + j) / 2) = true
      · rw [if_pos hf]
        have hmid1 : i ≤ (i + j) / 2 := by omega
        have hmid2 : (i + j) / 2 < j := by omega
        have hhigh' : ∀ x, (i + j) / 2 ≤ x → x < n → f x = true := fun x hx hxn =>
          hm x hxn ((i + j) / 2) hx hf
        have := sortSearchAux_spec f n hm k i ((i + j) / 2) (by omega) hmid1
          (by omega) hlow hhigh'
        exact ⟨this.1, le_trans this.2.1 (le_of_lt hmid2), this.2.2⟩
      · rw [if_neg hf]
        have hmid1 : i ≤ (i + j) / 2 := by omega
        have hmid2 : (i + j) / 2 < j := by omega
        have hlow' : ∀ x, x < (i + j) / 2 + 1 → f x = false := by
          intro x hx
          by_cases hxi : x < i
          · exact hlow x hxi
          · cases hfx : f x with
            | false => rfl
            | true =>
              exact absurd (hm ((i + j) / 2) (by omega) x (by omega) hfx)
                (by simpa using hf)
        have := sortSearchAux_spec f n hm k ((i + j) / 2 + 1) j (by omega)
          (by omega) hjn hlow' hhigh
        exact ⟨le_trans (by omega) this.1, this.2.1, this.2.2⟩
    · rw [dif_neg hij']
      have hji : i = j := by omega
      exact ⟨le_refl _, by omega, hlow, fun x hx hxn => hhigh x (by omega) hxn⟩

/-- C6: for every sorted file list with a monotonic previous-GTIDs predicate
`P`, the Smart File Selector's binary search finds the smallest index `idx`
with `P idx` true (everything below is false, everything from `idx` on is
true), and `FindStartFileUsingHeaders` returns `files[0]` when `idx = 0`,
`files[n-1]` when `idx = n`, and `files[idx-1]` otherwise. -/
theorem selector_spec (P : Nat → Bool) (files : List String)
    (hne : files ≠ [])
    (hm : ∀ j, j < files.length → ∀ i, i ≤ j → P i = true → P j = true) :
    sortSearch files.length P ≤ files.length ∧
    (∀ x, x < sortSearch files.length P → P x = false) ∧
    (∀ x, sortSearch files.length P ≤ x → x < files.length → P x = true) ∧
    FindStartFileUsingHeaders P files =
      .ok (if sortSearch files.length P = 0 then files.getD 0 ""
        else if sortSearch files.length P = files.length then
          files.getD (files.length - 1) ""
        else files.getD (sortSearch files.length P - 1) "") := by
  have hlen : ¬(files.length = 0) := fun h => hne (List.length_eq_zero.mp h)
  have hs := sortSearchAux_spec P files.length hm files.length 0 files.length
    (by omega) (Nat.zero_le _) (le_refl _)
    (fun x hx => absurd hx (Nat.not_lt_zero x))
    (fun x hx hxn => absurd hxn (by omega))
  refine ⟨hs.2.1, hs.2.2.1, hs.2.2.2, ?_⟩
  unfold FindStartFileUsingHeaders
  rw [if_neg hlen]
  dsimp only []
  split_ifs <;> rfl

theorem foldl_pickBest_some :
    ∀ (l : List GTIDPosition) (b : GTIDPosition),
    ∃ r, l.foldl pickBest (some b) = some r ∧ (r ∈ l ∨ r = b) ∧
      (∀ p ∈ l, p.gno ≤ r.gno) ∧ b.gno ≤ r.gno
  | [], b => ⟨b, rfl, Or.inr rfl, by simp, le_refl _⟩
  | p :: l, b => by
    simp only [List.foldl_cons, pickBest]
    by_cases hgt : p.gno > b.gno
    · rw [if_pos hgt]
      obtain ⟨r, hr, hmem, hall, hge⟩ := foldl_pickBest_some l p
      refine ⟨r, hr, ?_, ?_, le_trans (le_of_lt hgt) hge⟩
      · rcases hmem with hm | hm
        · exact Or.inl (List.mem_cons_of_mem _ hm)
        · exact Or.inl (hm ▸ List.mem_cons_self _ _)
      · intro q hq
        rcases List.mem_cons.mp hq with hq | hq
        · exact hq ▸ hge
        · exact hall q hq
    · rw [if_neg hgt]
      obtain ⟨r, hr, hmem, hall, hge⟩ := foldl_pickBest_some l b
      refine ⟨r, hr, ?_, ?_, hge⟩
      · rcases hmem with hm | hm
        · exact Or.inl (List.mem_cons_of_mem _ hm)
        · exact Or.inr hm
      · intro q hq
        rcases List.mem_cons.mp hq with hq | hq
        · exact hq ▸ le_trans (le_of_not_lt hgt) hge
        · exact hall q hq

/-- C7 (amended): the File Scan Coordinator's aggregation over the published
results is deterministic at the selection step — it selects a published match
whose transaction number is highest among all published matches; the set of
published results itself, however, depends on cancellation timing (see the
counterexample), so different runs can select different results. -/
theorem coordinator_selects_max (published : List GTIDPosition)
    (hne : published ≠ []) :
    ∃ r, collectBest published = some r ∧ r ∈ published ∧
      ∀ p ∈ published, p.gno ≤ r.gno := by
  cases published with
  | nil => exact absurd rfl hne
  | cons p l =>
    unfold collectBest
    simp only [List.foldl_cons, pickBest]
    obtain ⟨r, hr, hmem, hall, hge⟩ := foldl_pickBest_some l p
    refine ⟨r, hr, ?_, ?_⟩
    · rcases hmem with hm | hm
      · exact List.mem_cons_of_mem _ hm
      · exact hm ▸ List.mem_cons_self _ _
    · intro q hq
      rcases List.mem_cons.mp hq with hq | hq
      · exact hq ▸ hge
      · exact hall q hq

theorem probeHeader_no_prev (parseSet : String → Option MGTIDSet) :
    ∀ (events : List BinlogEvent),
    (∀ e ∈ events, ∀ t, e.body ≠ .prevGTIDsEv t) →
    probeHeader parseSet events = .exhausted
  | [], _ => rfl
  | e :: es, h => by
    unfold probeHeader
    cases hb : e.body
    case prevGTIDsEv t => exact absurd hb (h e (List.mem_cons_self e es) t)
    all_goals
      dsimp only []
      exact probeHeader_no_prev parseSet es
        (fun e' he' => h e' (List.mem_cons_of_mem e he'))

theorem probeHeader_first (parseSet : String → Option MGTIDSet) :
    ∀ (pre : List BinlogEvent) (e : BinlogEvent) (rest : List BinlogEvent)
    (t : String) (s : MGTIDSet),
    (∀ e' ∈ pre, ∀ t', e'.body ≠ .prevGTIDsEv t') →
    e.body = .prevGTIDsEv t → parseSet t = some s →
    probeHeader parseSet (pre ++ e :: rest) = .found s
  | [], e, rest, t, s, _, hb, hp => by
    simp only [List.nil_append]
    unfold probeHeader
    rw [hb]
    dsimp only []
    rw [hp]
  | e' :: pre, e, rest, t, s, h, hb, hp => by
    simp only [List.cons_append]
    unfold probeHeader
    cases hb' : e'.body
    case prevGTIDsEv t' => exact absurd hb' (h e' (List.mem_cons_self e' pre) t')
    all_goals
      dsimp only []
      exact probeHeader_first parseSet pre e rest t s
        (fun x hx => h x (List.mem_cons_of_mem e' hx)) hb hp

/-- C8: when the single-file scan stops early via the next-GTID
early-termination signal, `searchBinlogFile` returns the completed result
with no error; for every other non-nil error returned by the stream provider
it returns that error and no result. -/
theorem search_file_error_contract (cfg : Config) (target : String → Nat → Bool)
    (file : String) (events : List BinlogEvent) (tail : Option String) (st : ScanState) :
    (runScanE cfg target file initState events = .stopped st →
      searchBinlogFile cfg target file events tail = .ok st.result) ∧
    (runScanE cfg target file initState events = .completed st →
      ∀ msg, tail = some msg → msg ≠ "found_next_gtid" →
        searchBinlogFile cfg target file events tail = .error msg) := by
  constructor
  · intro h
    unfold searchBinlogFile
    rw [h]
    simp
  · intro h msg htail hne
    unfold searchBinlogFile
    rw [h, htail]
    simp [hne]

/-- C5 (amended): an event whose timestamp exceeds a configured end-time bound
terminates the scan of the Remote Stream Resolver — a normal stop returning
the best result held so far, not an error — whereas the single-file Tracker
(`searchBinlogFile`) merely skips such an event and continues scanning with
its state unchanged. -/
theorem endtime_remote_stop_file_skip (cfg : Config) (target : String → Nat → Bool) :
    (∀ (st : ScanState) (file : String) (e : BinlogEvent) (rest : List RemoteItem),
      cfg.endTimestamp > 0 → e.timestamp > cfg.endTimestamp →
      ¬(cfg.startTimestamp > 0 ∧ e.timestamp < cfg.startTimestamp) →
      runRemote cfg target st file (.ev e :: rest) = .ok st.result) ∧
    (∀ (st : ScanState) (file : String) (e : BinlogEvent),
      cfg.endTimestamp > 0 → e.timestamp > cfg.endTimestamp →
      processEvent cfg target file st e = .cont st) := by
  constructor
  · intro st file e rest hend hts hstart
    have hpe : processRemoteEvent cfg target st file e = .ret st.result := by
      unfold processRemoteEvent
      rw [if_neg hstart, if_pos ⟨hend, hts⟩]
    unfold runRemote
    rw [hpe]
  · intro st file e hend hts
    unfold processEvent
    by_cases hstart : cfg.startTimestamp > 0 ∧ e.timestamp < cfg.startTimestamp
    · rw [if_pos hstart]
    · rw [if_neg hstart, if_pos ⟨hend, hts⟩]

/-- C9: for every candidate file probed by the Smart File Selector, if the
header scan ends without finding a previous-GTIDs event, or the probe returns
an error, the predicate for that file evaluates to false (the file is treated
as unknown and not skipped); and the probe stops at the first previous-GTIDs
event it finds — the outcome depends only on the events up to and including
that event. -/
theorem header_probe_unknown_false (parseSet : String → Option MGTIDSet)
    (target : MGTIDSet) :
    (∀ events : List BinlogEvent, (∀ e ∈ events, ∀ t, e.body ≠ .prevGTIDsEv t) →
      headerPred (CheckPreviousGTIDs parseSet target events none) = false) ∧
    (∀ (events : List BinlogEvent) (tail : Option String) (msg : String),
      CheckPreviousGTIDs parseSet target events tail = .error msg →
      headerPred (CheckPreviousGTIDs parseSet target events tail) = false) ∧
    (∀ (pre : List BinlogEvent) (e : BinlogEvent) (rest : List BinlogEvent)
      (t : String) (s : MGTIDSet) (tail : Option String),
      (∀ e' ∈ pre, ∀ t', e'.body ≠ .prevGTIDsEv t') →
      e.body = .prevGTIDsEv t → parseSet t = some s →
      CheckPreviousGTIDs parseSet target (pre ++ e :: rest) tail =
        .ok (containSet s target)) := by
  refine ⟨?_, ?_, ?_⟩
  · intro events h
    unfold CheckPreviousGTIDs
    rw [probeHeader_no_prev parseSet events h]
    rfl
  · intro events tail msg h
    rw [h]
    rfl
  · intro pre e rest t s tail h hb hp
    unfold CheckPreviousGTIDs
    rw [probeHeader_first parseSet pre e rest t s h hb hp]

/-- C10: for every GTID event that opens an in-flight transaction, the
recorded start `position` equals `log_position - event_size` computed in
unsigned 32-bit arithmetic (`sub32`); and on a concrete input whose
`event_size` (200) exceeds its `log_position` (100) the subtraction wraps
modulo `2^32`, producing a start position `2^32 - 100` numerically greater
than the commit position. -/
theorem gtid_open_position_u32 :
    (∀ (cfg : Config) (target : String → Nat → Bool) (file : String)
      (st : ScanState) (e : BinlogEvent) (u : String) (n : Nat),
      timePass cfg e → e.body = .gtidEv u n → target u n = true →
      ¬(cfg.filterDatabase ≠ "" ∧ st.currentDatabase ≠ cfg.filterDatabase) →
      processEvent cfg target file st e = .cont ⟨st.result, st.currentDatabase,
        some ⟨file, sub32 e.logPos e.eventSize, e.logPos, e.logPos, e.timestamp,
          gtidString u n, u, n, st.currentDatabase, ""⟩⟩) ∧
    ((runScan cfgNone targetU100 "f" initState c4events).result = some c4rec ∧
      c4events.head?.map (fun e => e.eventSize) = some 200 ∧
      c4events.head?.map (fun e => e.logPos) = some 100 ∧
      c4rec.position = 4294967196 ∧ c4rec.commitPosition = 2000 ∧
      c4rec.commitPosition < c4rec.position) :=
  ⟨fun cfg target file st e u n ht hb hT hdb =>
    processEvent_open cfg target file st e u n ht hb hT hdb, by decide⟩

/-- C1 as stated is false: after the committed in-range transaction `U:50`
(commit offset 2000), the later GTID event `U:60` at end offset 2100 is
itself inside the target `U:1-100`; the Tracker opens a new in-flight
transaction instead of recording a boundary, and the returned result has
`resume_position = 2000 ≠ 2100` and `next_gtid = "" ≠ "U:60"`. -/
theorem c1_counterexample :
    (runScan cfgNone targetU100 "f" initState c1events).result =
      some ⟨"f", 900, 2000, 2000, 5, "U:50", "U", 50, "", ""⟩ ∧
    (2000 : Nat) ≠ (gtidAt 60 2100).logPos ∧
    ("" : String) ≠ gtidString "U" 60 := by
  refine ⟨by decide, by decide, by decide⟩

/-- Witness for the amended C1: the spec's own scenario — commit at 2000
followed by the out-of-range GTID event `U:200` at 2100 — stops the scan with
`resume_position = 2100` and `next_gtid = "U:200"`. -/
theorem c1_witness :
    ∃ st, runScanE cfgNone targetU100 "f" initState
        ([] ++ gtidAt 50 1000 :: ([] ++ xidAt 2000 :: ([] ++ gtidAt 200 2100 :: []))) =
      .stopped st ∧
    ∃ r, st.result = some r ∧ r.resumePosition = (gtidAt 200 2100).logPos ∧
      r.nextGTID = gtidString "U" 200 :=
  tracker_boundary cfgNone targetU100 "f" [] [] [] [] (gtidAt 50 1000) (xidAt 2000)
    (gtidAt 200 2100) "U" 50 "U" 200 rfl rfl rfl (by simp) rfl (by decide)
    (by simp) (by decide) (by simp) rfl (by decide)

/-- Witness for C2: with committed transactions `U:10` and `U:50` and the
boundary `U:200`, the returned gno 50 is a committed match and maximal. -/
theorem c2_witness :
    (50 : Nat) ∈ commitsDuring cfgNone targetU100 "f" initState c2events ∧
    ∀ g ∈ commitsDuring cfgNone targetU100 "f" initState c2events, g ≤ 50 :=
  tracker_highest_committed_gno cfgNone targetU100 "f" c2events
    ⟨"f", 1400, 2000, 2500, 5, "U:50", "U", 50, "", "U:200"⟩ (by decide)

/-- Witness for C3: the spec's scenario `[GTID(U,50), XID@2000]` yields
`resume_position = commit_position` and empty `next_gtid`. -/
theorem c3_witness :
    ∃ r, (runScan cfgNone targetU100 "f" initState
        ([] ++ gtidAt 50 1000 :: ([] ++ xidAt 2000 :: []))).result = some r ∧
      r.resumePosition = r.commitPosition ∧ r.nextGTID = "" :=
  tracker_single_commit cfgNone targetU100 "f" [] [] [] (gtidAt 50 1000) (xidAt 2000)
    "U" 50 rfl rfl rfl (by simp) rfl (by decide) (by simp) (by decide) (by simp)

/-- C4 as stated is false: a GTID event with `event_size = 200` larger than
its `log_position = 100` makes the uint32 start-position subtraction wrap, so
the returned record has `position = 2^32 - 100 > commit_position = 2000`. -/
theorem c4_counterexample :
    (runScan cfgNone targetU100 "f" initState c4events).result = some c4rec ∧
    ¬(c4rec.position ≤ c4rec.commitPosition ∧
      c4rec.commitPosition ≤ c4rec.resumePosition) := by
  refine ⟨by decide, by decide⟩

/-- Witness for the amended C4: on the well-formed, monotone sequence
`[GTID(U,50)@1000, XID@2000]` the returned record satisfies
`position ≤ commit_position ≤ resume_position`. -/
theorem c4_witness :
    (⟨"f", 900, 2000, 2000, 5, "U:50", "U", 50, "", ""⟩ : GTIDPosition).position ≤
      (⟨"f", 900, 2000, 2000, 5, "U:50", "U", 50, "", ""⟩ : GTIDPosition).commitPosition ∧
    (⟨"f", 900, 2000, 2000, 5, "U:50", "U", 50, "", ""⟩ : GTIDPosition).commitPosition ≤
      (⟨"f", 900, 2000, 2000, 5, "U:50", "U", 50, "", ""⟩ : GTIDPosition).resumePosition :=
  tracker_ordering_invariant cfgNone targetU100 "f" [gtidAt 50 1000, xidAt 2000]
    ⟨"f", 900, 2000, 2000, 5, "U:50", "U", 50, "", ""⟩ (by decide) (by decide) (by decide)

/-- C5 as stated is false for the single-file Tracker: with end bound 150,
the first event (timestamp 200) exceeds the bound while `best` is still
empty, yet the scan does not terminate there — it completes the whole
sequence and returns a result committed at offset 2000 built from the events
after the bound-exceeding one. -/
theorem c5_counterexample :
    runScanE cfgEnd150 targetU100 "f" initState c5events =
      .completed ⟨some c5rec, "", none⟩ ∧
    searchBinlogFile cfgEnd150 targetU100 "f" c5events none = .ok (some c5rec) ∧
    c5rec.commitPosition = 2000 ∧
    (c5events.head?.map fun e => e.timestamp) = some 200 := by
  refine ⟨by decide, rfl, by decide, by decide⟩

/-- Witness for the amended C5: the remote loop returns the current best
(none) at an event with timestamp 200 past the bound 150, ignoring the rest
of the stream, while the file tracker's step leaves its state unchanged. -/
theorem c5_witness :
    runRemote cfgEnd150 targetU100 initState "bf"
      [.ev ⟨200, 500, 100, .xidEv⟩, .ev ⟨100, 1000, 100, .gtidEv "U" 50⟩] =
      .ok initState.result ∧
    processEvent cfgEnd150 targetU100 "f" initState ⟨200, 500, 100, .xidEv⟩ =
      .cont initState :=
  ⟨(endtime_remote_stop_file_skip cfgEnd150 targetU100).1 initState "bf"
      ⟨200, 500, 100, .xidEv⟩ [.ev ⟨100, 1000, 100, .gtidEv "U" 50⟩]
      (by decide) (by decide) (by decide),
   (endtime_remote_stop_file_skip cfgEnd150 targetU100).2 initState "f"
      ⟨200, 500, 100, .xidEv⟩ (by decide) (by decide)⟩

/-- C7 as stated is false: with two files both containing matches (gno 10
and gno 99), the run that scans only file 0 — admissible because a task that
observes the cancellation flag after file 0 publishes exits without scanning
— selects gno 10, while the run that scans both files selects gno 99. -/
theorem c7_counterexample :
    admissibleRun twoMatchScan 2 [0] ∧ admissibleRun twoMatchScan 2 [0, 1] ∧
    searchParallelOutcome twoMatchScan [0] = some pubA ∧
    searchParallelOutcome twoMatchScan [0, 1] = some pubB ∧
    pubA ≠ pubB := by
  refine ⟨by decide, by decide, by decide, by decide, by decide⟩

/-- Witness for the amended C7: over the published list `[pubA, pubB]` the
aggregation selects a member with maximal transaction number. -/
theorem c7_witness :
    ∃ r, collectBest [pubA, pubB] = some r ∧ r ∈ [pubA, pubB] ∧
      ∀ p ∈ [pubA, pubB], p.gno ≤ r.gno :=
  coordinator_selects_max [pubA, pubB] (by simp)

/-- Witness for C8: an early-terminated scan returns its result with no
error, and a provider error message is surfaced as that error. -/
theorem c8_witness :
    searchBinlogFile cfgNone targetU100 "f" c2events none =
      .ok (some ⟨"f", 1400, 2000, 2500, 5, "U:50", "U", 50, "", "U:200"⟩) ∧
    searchBinlogFile cfgNone targetU100 "f" [] (some "boom") = .error "boom" := by
  constructor
  · exact (search_file_error_contract cfgNone targetU100 "f" c2events none
      ⟨some ⟨"f", 1400, 2000, 2500, 5, "U:50", "U", 50, "", "U:200"⟩, "", none⟩).1
      (by decide)
  · exact (search_file_error_contract cfgNone targetU100 "f" [] (some "boom")
      initState).2 rfl "boom" rfl (by decide)

/-- Witness for C9: a header with no previous-GTIDs event gives predicate
false, a probe error gives predicate false, and the probe result for a file
whose second event is `U:1-120` depends only on that first occurrence. -/
theorem c9_witness :
    headerPred (CheckPreviousGTIDs parseScen targetSetU100 [xidAt 10] none) = false ∧
    headerPred (CheckPreviousGTIDs parseScen targetSetU100 [] (some "io error")) = false ∧
    CheckPreviousGTIDs parseScen targetSetU100
      ([xidAt 10] ++ (⟨0, 200, 50, .prevGTIDsEv "U:1-120"⟩ : BinlogEvent) ::
        [gtidAt 5 400]) none =
      .ok (containSet [⟨"U", 1, 120⟩] targetSetU100) := by
  refine ⟨?_, ?_, ?_⟩
  · exact (header_probe_unknown_false parseScen targetSetU100).1 [xidAt 10]
      (by simp [xidAt])
  · exact (header_probe_unknown_false parseScen targetSetU100).2.1 [] (some "io error")
      "io error" rfl
  · exact (header_probe_unknown_false parseScen targetSetU100).2.2 [xidAt 10] _
      [gtidAt 5 400] "U:1-120" [⟨"U", 1, 120⟩] none (by simp [xidAt]) rfl rfl

/-- Witness for C10: opening a transaction at the event with
`log_position = 100` and `event_size = 200` records
`position = sub32 100 200`. -/
theorem c10_witness :
    processEvent cfgNone targetU100 "f" initState ⟨5, 100, 200, .gtidEv "U" 50⟩ =
      .cont ⟨initState.result, initState.currentDatabase,
        some ⟨"f", sub32 100 200, 100, 100, 5, gtidString "U" 50, "U", 50,
          initState.currentDatabase, ""⟩⟩ :=
  gtid_open_position_u32.1 cfgNone targetU100 "f" initState ⟨5, 100, 200, .gtidEv "U" 50⟩
    "U" 50 (by decide) rfl (by decide) (by decide)

/-- Witness for C6, the spec's scenario: target `U:1-100` over headers
`U:1-50`, `U:1-80`, `U:1-120` — the monotone predicate is false, false, true,
so the selector returns the second file. -/
theorem c6_witness :
    FindStartFileUsingHeaders scenPred ["f1", "f2", "f3"] = .ok "f2" := by
  have h := selector_spec scenPred ["f1", "f2", "f3"] (by simp) (by decide)
  have hlow : ∀ x, x < sortSearch 3 scenPred → scenPred x = false := h.2.1
  have hhigh : ∀ x, sortSearch 3 scenPred ≤ x → x < 3 → scenPred x = true := h.2.2.1
  have h4 : FindStartFileUsingHeaders scenPred ["f1", "f2", "f3"] =
      .ok (if sortSearch 3 scenPred = 0 then (["f1", "f2", "f3"] : List String).getD 0 ""
        else if sortSearch 3 scenPred = 3 then (["f1", "f2", "f3"] : List String).getD 2 ""
        else (["f1", "f2", "f3"] : List String).getD (sortSearch 3 scenPred - 1) "") :=
    h.2.2.2
  have hP1 : scenPred 1 = false := by decide
  have hP2 : scenPred 2 = true := by decide
  have hle : sortSearch 3 scenPred ≤ 2 := by
    by_contra hgt
    push_neg at hgt
    have := hlow 2 hgt
    rw [hP2] at this
    cases this
  have hge : 2 ≤ sortSearch 3 scenPred := by
    by_contra hlt
    push_neg at hlt
    have := hhigh 1 (by omega) (by omega)
    rw [hP1] at this
    cases this
  have hidx : sortSearch 3 scenPred = 2 := le_antisymm hle hge
  rw [h4, hidx]
  rfl
